import Mathlib

set_option maxRecDepth 10000

/-! Verification development for the logd commit-log service.

The Go sources are shallowly embedded: bytes are natural numbers below 256,
byte strings are lists of naturals, Go maps are association lists, bounded
channels are capacity-tagged buffers, and the fallible log writer is driven
by an explicit failure oracle. The embedded components are the event queue
of src/events/events.go, the protocol scanner of src/protocol/scanner.go,
the read path of the client package, and the request multiplexer
events.Handlers. Definitions follow the sources; the few helpers whose
source file is not part of the repository snapshot (ReadLine, ParseNumber,
the CRC table, the logger range call) are modelled from the specification
and say so in their doc comments. -/

/- ===== Byte-string utilities: decimal parsing and encoding ===== -/

/-- Accumulating base-10 parser: every byte must be an ASCII digit
(strconv scans character by character and rejects the first non-digit). -/
def parseDecAux : List Nat → Nat → Option Nat
  | [], acc => some acc
  | c :: rest, acc =>
    if 48 ≤ c ∧ c ≤ 57 then parseDecAux rest (acc * 10 + (c - 48)) else none

/-- Model of strconv.ParseUint with base 10 and the given bit size: the
input must be nonempty, all digits, and the value must fit the bit size. -/
def parseUint (bits : Nat) (s : List Nat) : Option Nat :=
  match s with
  | [] => none
  | _ :: _ =>
    match parseDecAux s 0 with
    | none => none
    | some v => if v < 2 ^ bits then some v else none

/-- Model of strconv.ParseInt with base 10 and bit size 64: an optional
sign followed by a nonempty digit string, within the signed 64-bit range. -/
def parseInt64 (s : List Nat) : Option Int :=
  match s with
  | 45 :: rest =>
    (match rest, parseDecAux rest 0 with
     | _ :: _, some v => if v ≤ 2 ^ 63 then some (-(v : Int)) else none
     | _, _ => none)
  | 43 :: rest =>
    (match rest, parseDecAux rest 0 with
     | _ :: _, some v => if v < 2 ^ 63 then some (v : Int) else none
     | _, _ => none)
  | _ =>
    (match s, parseDecAux s 0 with
     | _ :: _, some v => if v < 2 ^ 63 then some (v : Int) else none
     | _, _ => none)

/-- Fuelled helper for decimal encoding. -/
def encDecCore : Nat → Nat → List Nat
  | 0, _ => []
  | fuel + 1, n =>
    if n < 10 then [48 + n] else encDecCore fuel (n / 10) ++ [48 + n % 10]

/-- Decimal ASCII encoding of a natural number. -/
def encDec (n : Nat) : List Nat := encDecCore (n + 1) n

/- ===== CRC-32 =====

The scanner computes crc32.Checksum(body, crcTable); the table definition
is not part of the sources, so the algorithm is modelled from the spec
(section 4.1: IEEE CRC-32, reflected polynomial 0xEDB88320). -/

/-- Generator polynomial of IEEE CRC-32 in reflected form. -/
def crcPoly : Nat := 0xEDB88320

/-- One reflected CRC round: shift right and conditionally xor the
polynomial in, depending on the bit shifted out. -/
def crcRound (c : Nat) : Nat :=
  if c % 2 = 1 then (c / 2) ^^^ crcPoly else c / 2

/-- Iterated CRC rounds. -/
def crcRounds : Nat → Nat → Nat
  | 0, c => c
  | n + 1, c => crcRounds n (crcRound c)

/-- CRC update for one input byte. -/
def crcByte (c b : Nat) : Nat := crcRounds 8 (c ^^^ b)

/-- Running CRC over a byte list from a given accumulator. -/
def crcAcc (a : Nat) (l : List Nat) : Nat := l.foldl crcByte a

/-- IEEE CRC-32 of a byte list, as crc32.Checksum with the IEEE table
(modelled from the spec). -/
def crc32 (l : List Nat) : Nat := crcAcc 0xFFFFFFFF l ^^^ 0xFFFFFFFF

/-- Wire form of one log message as written by the protocol writer
(WriteLogLine is not in the snapshot; modelled from the spec as the exact
inverse of Scanner.ReadMessage): decimal id, body length and CRC-32
separated by spaces, then the body and a CRLF terminator. -/
def wireMsg (id : Nat) (body : List Nat) : List Nat :=
  encDec id ++ 32 :: (encDec body.length ++ 32 :: (encDec (crc32 body) ++ 32 :: (body ++ [13, 10])))

/- ===== Event queue model (src/events/events.go) ===== -/

/-- Client-error payloads used by the event queue (protocol's
ErrRespNoArguments, ErrRespEmptyMessage, ErrRespInvalid). -/
inductive ClientErrMsg
  | noArguments
  | emptyMessage
  | invalid
  deriving DecidableEq

/-- Response status: protocol.RespOK, RespErr, RespClientErr. -/
inductive RespStatus
  | ok
  | err
  | clientErr (m : ClientErrMsg)
  deriving DecidableEq

/-- Items travelling over a read response's reader channel: chunk size
envelopes, chunk payloads, and the EOF terminator sent by SendEOF. -/
inductive StreamEvent
  | env (n : Nat)
  | chunk (bytes : List Nat)
  | eofMark
  deriving DecidableEq

/-- Bounded channel of readers: capacity and currently buffered payloads. -/
structure RChan where
  cap : Nat
  buf : List (List Nat)
  deriving DecidableEq

/-- State of the file logger as the event queue sees it: the written wire
lines keyed by their ids, and the id last passed to SetID, which is what
Head reports. Reads of Head are modelled error-free. -/
structure LogState where
  entries : List (Nat × List Nat)
  logID : Nat
  deriving DecidableEq

/-- One Subscription (events.Subscription): the reader channel shared with
the response. The done channel is owned by the command and is modelled
only through the send outcomes below. -/
structure Subscription where
  readerC : RChan
  deriving DecidableEq

/-- State of one events.EventQ: current id, subscription map keyed by
connection id, backing log, and the stats counters. -/
structure EQState where
  currID : Nat
  subs : List (String × Subscription)
  log : LogState
  stats : List (String × Nat)
  deriving DecidableEq

/-- A response value: status, id field, optional stats body, and whether a
reader channel was attached (doRead's ReaderC). -/
structure Resp where
  status : RespStatus
  id : Nat
  statsBody : Option (List (String × Nat))
  hasReaderC : Bool
  deriving DecidableEq

/-- Plain OK response. -/
def okPlain : Resp := ⟨RespStatus.ok, 0, none, false⟩

/-- Plain ERR response. -/
def respErrPlain : Resp := ⟨RespStatus.err, 0, none, false⟩

/-- CLIENT_ERR response with the invalid-command payload. -/
def clientErrInvalidResp : Resp := ⟨RespStatus.clientErr ClientErrMsg.invalid, 0, none, false⟩

/-- Stats.Incr: bump a named counter, creating it at 1 if absent. -/
def statsIncr (s : List (String × Nat)) (k : String) : List (String × Nat) :=
  if (s.find? (fun p => p.1 == k)).isSome then
    s.map (fun p => if p.1 == k then (p.1, p.2 + 1) else p)
  else s ++ [(k, 1)]

/-- Go map assignment on the subscription association list. -/
def subsSet (s : List (String × Subscription)) (k : String) (v : Subscription) : List (String × Subscription) :=
  s.filter (fun p => p.1 != k) ++ [(k, v)]

/-- Go map lookup on the subscription association list. -/
def subsGet (s : List (String × Subscription)) (k : String) : Option Subscription :=
  (s.find? (fun p => p.1 == k)).map Prod.snd

/-- Go map delete on the subscription association list. -/
def subsDel (s : List (String × Subscription)) (k : String) : List (String × Subscription) :=
  s.filter (fun p => p.1 != k)

/-- Outcome of a channel send performed by the event queue goroutine. -/
inductive SendOutcome
  | delivered (c : RChan)
  | blocked
  deriving DecidableEq

/-- Send on a bounded channel: the item is buffered when a slot is free,
otherwise the sender blocks until a receiver frees one (Go semantics of a
plain send on a buffered channel). -/
def chanSend (c : RChan) (x : List Nat) : SendOutcome :=
  if c.buf.length < c.cap then SendOutcome.delivered ⟨c.cap, c.buf ++ [x]⟩
  else SendOutcome.blocked

/-- Subscription.send: forward one message's bytes over the reader channel
with a plain channel send (no select, no default branch). -/
def subscriptionSend (sub : Subscription) (msg : List Nat) : SendOutcome :=
  chanSend sub.readerC msg

/-- Deliver a list of messages to one subscription in order; none when one
of the sends blocks. -/
def publishToSub (sub : Subscription) (msgs : List (List Nat)) : Option Subscription :=
  msgs.foldl
    (fun acc m => acc.bind (fun s =>
      match subscriptionSend s m with
      | SendOutcome.delivered c => some ⟨c⟩
      | SendOutcome.blocked => none))
    (some sub)

/-- EventQ.publishMessages: deliver the freshly written messages to every
subscriber in map order; none when any send blocks the queue. -/
def publishMessages (subs : List (String × Subscription)) (msgs : List (List Nat)) :
    Option (List (String × Subscription)) :=
  subs.foldl
    (fun acc p => acc.bind (fun out =>
      (publishToSub p.2 msgs).map (fun s => out ++ [(p.1, s)])))
    (some [])

/-- How the per-message loop of handleMsg ended. -/
inductive MsgOutcome
  | emptyMsg
  | writeFail
  | success
  deriving DecidableEq

/-- Result of the handleMsg write loop: final log state, last assigned id,
successfully written wire lines, and the outcome. -/
structure MsgLoopRes where
  lg : LogState
  id : Nat
  written : List (List Nat)
  outcome : MsgOutcome
  deriving DecidableEq

/-- Cons one written line onto a loop result. -/
def consLoopRes (m : List Nat) (r : MsgLoopRes) : MsgLoopRes :=
  ⟨r.lg, r.id, m :: r.written, r.outcome⟩

/-- The message loop of EventQ.handleMsg: each argument is rejected if
empty, otherwise assigned the next id, encoded, SetID is applied and the
line written; the loop stops at the first failure and earlier writes are
kept. wfail says whether the i-th write of this command fails. -/
def handleMsgLoop (wfail : Nat → Bool) : List (List Nat) → LogState → Nat → Nat → MsgLoopRes
  | [], lg, id, _ => ⟨lg, id, [], MsgOutcome.success⟩
  | msg :: rest, lg, id, widx =>
    if msg = [] then ⟨lg, id, [], MsgOutcome.emptyMsg⟩
    else if wfail widx then ⟨⟨lg.entries, id + 1⟩, id, [], MsgOutcome.writeFail⟩
    else
      consLoopRes (wireMsg (id + 1) msg)
        (handleMsgLoop wfail rest
          ⟨lg.entries ++ [(id + 1, wireMsg (id + 1) msg)], id + 1⟩ (id + 1) (widx + 1))

/-- Result of handleMsg: the response delivered on the command's channel
and whether the publish completed without blocking the queue. -/
structure MsgResult where
  resp : Resp
  publishDone : Bool
  deriving DecidableEq

/-- EventQ.handleMsg: reject an empty argument list, run the write loop,
and on success advance currID, count the write, respond OK with the last
id, and publish the written lines to the subscribers. -/
def handleMsg (st : EQState) (args : List (List Nat)) (wfail : Nat → Bool) :
    EQState × MsgResult :=
  if args = [] then
    (st, ⟨⟨RespStatus.clientErr ClientErrMsg.noArguments, 0, none, false⟩, true⟩)
  else
    let r := handleMsgLoop wfail args st.log (st.currID - 1) 0
    match r.outcome with
    | MsgOutcome.emptyMsg =>
      ({ st with log := r.lg }, ⟨⟨RespStatus.clientErr ClientErrMsg.emptyMessage, 0, none, false⟩, true⟩)
    | MsgOutcome.writeFail =>
      ({ st with log := r.lg }, ⟨⟨RespStatus.err, 0, none, false⟩, true⟩)
    | MsgOutcome.success =>
      match publishMessages st.subs r.written with
      | some subs2 =>
        (⟨r.id + 1, subs2, r.lg, statsIncr st.stats "total_writes"⟩,
         ⟨⟨RespStatus.ok, r.id, none, false⟩, true⟩)
      | none =>
        (⟨r.id + 1, st.subs, r.lg, statsIncr st.stats "total_writes"⟩,
         ⟨⟨RespStatus.ok, r.id, none, false⟩, false⟩)

/-- Result of a streaming read: the response (delivered before any
streaming), the events pushed over the reader channel, and whether Finish
was signalled. -/
structure ReadResult where
  resp : Resp
  stream : List StreamEvent
  finished : Bool
  deriving DecidableEq

/-- Model of the logger's Range call (the logger package is not in the
snapshot; modelled from the spec, section 4.2: the iterator starts at the
entry whose id equals start and fails with ErrNotFound when none does). -/
def rangeLog (lg : LogState) (start endv : Nat) : Except Unit (List (Nat × List Nat)) :=
  if (lg.entries.find? (fun e => e.1 == start)).isSome then
    Except.ok (lg.entries.filter (fun e => start ≤ e.1 && e.1 ≤ endv))
  else Except.error ()

/-- EventQ.sendChunk: a size envelope reader followed by the limited file
reader. -/
def sendChunk (bytes : List Nat) : List StreamEvent :=
  [StreamEvent.env bytes.length, StreamEvent.chunk bytes]

/-- EventQ.doRead: respond OK with a fresh capacity-1000 reader channel,
compute the end id (head when the limit is zero), register a subscription
for the connection, then stream the requested range; a range failure sends
EOF and finishes, and a nonzero limit also ends with EOF and Finish. -/
def doRead (st : EQState) (connID : String) (startID limit : Nat) :
    EQState × ReadResult :=
  let resp : Resp := ⟨RespStatus.ok, 0, none, true⟩
  let endv := if limit = 0 then st.log.logID else startID + limit
  let st1 := { st with subs := subsSet st.subs connID ⟨⟨1000, []⟩⟩ }
  match rangeLog st.log startID endv with
  | Except.error _ => (st1, ⟨resp, [StreamEvent.eofMark], true⟩)
  | Except.ok found =>
    let evs := found.foldr (fun c acc => sendChunk c.2 ++ acc) []
    if limit ≠ 0 then (st1, ⟨resp, evs ++ [StreamEvent.eofMark], true⟩)
    else (st1, ⟨resp, evs, false⟩)

/-- Model of protocol.ParseNumber (not in the snapshot; the spec says
integers are unsigned decimal ASCII): ParseUint with 64 bits. -/
def parseNumber (s : List Nat) : Option Nat := parseUint 64 s

/-- EventQ.parseRead: exactly two numeric arguments. -/
def parseRead (args : List (List Nat)) : Option (Nat × Nat) :=
  match args with
  | [a, b] =>
    (match parseNumber a, parseNumber b with
     | some x, some y => some (x, y)
     | _, _ => none)
  | _ => none

/-- EventQ.parseReplicate: exactly one numeric argument. -/
def parseReplicate (args : List (List Nat)) : Option Nat :=
  match args with
  | [a] => parseNumber a
  | _ => none

/-- EventQ.handleRead: a parse failure answers CLIENT_ERR, otherwise the
read is counted and doRead runs. -/
def handleRead (st : EQState) (connID : String) (args : List (List Nat)) :
    EQState × ReadResult :=
  match parseRead args with
  | none => (st, ⟨clientErrInvalidResp, [], false⟩)
  | some (startID, limit) =>
    doRead { st with stats := statsIncr st.stats "total_reads" } connID startID limit

/-- EventQ.handleHead: no arguments allowed; reports the log head id. -/
def handleHead (st : EQState) (args : List (List Nat)) : EQState × Resp :=
  if args ≠ [] then (st, clientErrInvalidResp)
  else (st, ⟨RespStatus.ok, st.log.logID, none, false⟩)

/-- EventQ.handleStats: no arguments allowed; snapshots the counters. -/
def handleStats (st : EQState) (args : List (List Nat)) : EQState × Resp :=
  if args ≠ [] then (st, clientErrInvalidResp)
  else (st, ⟨RespStatus.ok, 0, some st.stats, false⟩)

/-- EventQ.handlePing: no arguments allowed. -/
def handlePing (st : EQState) (args : List (List Nat)) : EQState × Resp :=
  if args ≠ [] then (st, clientErrInvalidResp)
  else (st, okPlain)

/-- EventQ.handleClose: no arguments allowed; removes the connection's
subscription (finishing it) and answers OK. -/
def handleClose (st : EQState) (connID : String) (args : List (List Nat)) :
    EQState × Resp :=
  if args ≠ [] then (st, clientErrInvalidResp)
  else ({ st with subs := subsDel st.subs connID }, okPlain)

/-- EventQ.handleSleep's response: one integer argument parsed with
Sscanf, then OK after the sleep (time is not modelled). -/
def handleSleepResp (args : List (List Nat)) : Resp :=
  match args with
  | [a] =>
    (match parseInt64 a with
     | some _ => okPlain
     | none => clientErrInvalidResp)
  | _ => clientErrInvalidResp

/-- Command names understood by the event queue loop; any other CmdType
value falls to the default case. -/
inductive CmdName
  | message
  | replicate
  | rawMessage
  | read
  | head
  | stats
  | ping
  | close
  | sleep
  | shutdown
  | other (n : Nat)
  deriving DecidableEq

/-- One inbound command: name, arguments and connection id. -/
structure Command where
  name : CmdName
  args : List (List Nat)
  connID : String
  deriving DecidableEq

/-- Unified view of what one dispatch produced. -/
structure HandlerOut where
  resp : Resp
  stream : List StreamEvent
  finished : Bool
  deriving DecidableEq

/-- A dispatch that only responds. -/
def respOnly (r : Resp) : HandlerOut := ⟨r, [], false⟩

/-- The switch of EventQ.loop on one received command. shutdownFails
models the outcome of LogManager.Shutdown, wfail those of log writes. -/
def loopDispatch (st : EQState) (cmd : Command) (wfail : Nat → Bool)
    (shutdownFails : Bool) : EQState × HandlerOut :=
  match cmd.name with
  | CmdName.message =>
    (let r := handleMsg st cmd.args wfail
     (r.1, respOnly r.2.resp))
  | CmdName.replicate =>
    (match parseReplicate cmd.args with
     | none => (st, respOnly respErrPlain)
     | some startID =>
       (let r := doRead st cmd.connID startID 0
        (r.1, ⟨r.2.resp, r.2.stream, r.2.finished⟩)))
  | CmdName.rawMessage => (st, respOnly okPlain)
  | CmdName.read =>
    (let r := handleRead st cmd.connID cmd.args
     (r.1, ⟨r.2.resp, r.2.stream, r.2.finished⟩))
  | CmdName.head =>
    (let r := handleHead st cmd.args
     (r.1, respOnly r.2))
  | CmdName.stats =>
    (let r := handleStats st cmd.args
     (r.1, respOnly r.2))
  | CmdName.ping =>
    (let r := handlePing st cmd.args
     (r.1, respOnly r.2))
  | CmdName.close =>
    (let r := handleClose st cmd.connID cmd.args
     (r.1, respOnly r.2))
  | CmdName.sleep => (st, respOnly (handleSleepResp cmd.args))
  | CmdName.shutdown =>
    if shutdownFails then (st, respOnly respErrPlain) else (st, respOnly okPlain)
  | CmdName.other _ => (st, respOnly respErrPlain)

/-- A fresh event-queue state used by the concrete counterexamples. -/
def eqState0 : EQState := ⟨1, [], ⟨[], 0⟩, []⟩

/- ===== Helper lemmas about the event queue ===== -/

/-- The write loop only ever appends to the log entries. -/
theorem handleMsgLoop_entries_extend (wfail : Nat → Bool) :
    ∀ (args : List (List Nat)) (lg : LogState) (id widx : Nat),
      ∃ t, (handleMsgLoop wfail args lg id widx).lg.entries = lg.entries ++ t := by
  intro args
  induction args with
  | nil =>
    intro lg id widx
    exact ⟨[], by simp [handleMsgLoop]⟩
  | cons msg rest ih =>
    intro lg id widx
    by_cases hm : msg = []
    · exact ⟨[], by simp [handleMsgLoop, hm]⟩
    · by_cases hw : wfail widx
      · exact ⟨[], by simp [handleMsgLoop, hm, hw]⟩
      · obtain ⟨t, ht⟩ :=
          ih ⟨lg.entries ++ [(id + 1, wireMsg (id + 1) msg)], id + 1⟩ (id + 1) (widx + 1)
        refine ⟨(id + 1, wireMsg (id + 1) msg) :: t, ?_⟩
        simp only [handleMsgLoop, hm, hw, consLoopRes, Bool.false_eq_true, if_false]
        rw [ht]
        simp

/-- A successful write loop assigns ids consecutively: the last id is the
starting id plus the number of messages. -/
theorem handleMsgLoop_success_id (wfail : Nat → Bool) :
    ∀ (args : List (List Nat)) (lg : LogState) (id widx : Nat),
      (handleMsgLoop wfail args lg id widx).outcome = MsgOutcome.success →
      (handleMsgLoop wfail args lg id widx).id = id + args.length := by
  intro args
  induction args with
  | nil =>
    intro lg id widx _
    simp [handleMsgLoop]
  | cons msg rest ih =>
    intro lg id widx h
    by_cases hm : msg = []
    · simp [handleMsgLoop, hm] at h
    · by_cases hw : wfail widx
      · simp [handleMsgLoop, hm, hw] at h
      · simp only [handleMsgLoop, hm, hw, consLoopRes, Bool.false_eq_true, if_false] at h ⊢
        rw [ih _ (id + 1) (widx + 1) h]
        simp
        omega

/-- On a successful handleMsg, the response id is the starting current id
minus one plus the number of messages, and currID becomes its successor. -/
theorem handleMsg_ok_id (st : EQState) (args : List (List Nat)) (wfail : Nat → Bool)
    (h : (handleMsg st args wfail).2.resp.status = RespStatus.ok) :
    (handleMsg st args wfail).2.resp.id = st.currID - 1 + args.length ∧
    (handleMsg st args wfail).1.currID = st.currID - 1 + args.length + 1 := by
  by_cases ha : args = []
  · simp [handleMsg, ha] at h
  · unfold handleMsg at h ⊢
    simp only [ha, if_false] at h ⊢
    cases ho : (handleMsgLoop wfail args st.log (st.currID - 1) 0).outcome with
    | emptyMsg => simp [ho] at h
    | writeFail => simp [ho] at h
    | success =>
      have hid := handleMsgLoop_success_id wfail args st.log (st.currID - 1) 0 ho
      cases hp : publishMessages st.subs (handleMsgLoop wfail args st.log (st.currID - 1) 0).written with
      | none => simp [ho, hp, hid]
      | some subs2 => simp [ho, hp, hid]

/-- Filtering out a key leaves nothing for find? to find under that key. -/
theorem find?_filter_ne (s : List (String × Subscription)) (k : String) :
    (s.filter (fun p => p.1 != k)).find? (fun p => p.1 == k) = none := by
  rw [List.find?_eq_none]
  intro x hx
  have hm := List.of_mem_filter hx
  simp at hm ⊢
  exact hm

theorem find?_append_of_none (p : (String × Subscription) → Bool) :
    ∀ (l1 l2 : List (String × Subscription)), l1.find? p = none →
      (l1 ++ l2).find? p = l2.find? p := by
  intro l1
  induction l1 with
  | nil => simp
  | cons x rest ih =>
    intro l2 h
    cases hx : p x with
    | true => simp [List.find?_cons, hx] at h
    | false =>
      simp only [List.find?_cons, hx, cond_false] at h
      simpa [List.find?_cons, hx] using ih l2 h

/-- Looking up the key just assigned in the subscription map finds the new
subscription. -/
theorem subsGet_subsSet (s : List (String × Subscription)) (k : String) (v : Subscription) :
    subsGet (subsSet s k v) k = some v := by
  unfold subsGet subsSet
  rw [find?_append_of_none _ _ _ (find?_filter_ne s k)]
  simp [List.find?]

/- ===== C1: rejected write commands and the log ===== -/

/-- C1 counterexample: the write command with arguments "a" and "" is
rejected with CLIENT_ERR (empty message), yet the wire line for "a" has
been written: the rejected command does not leave the log unchanged. -/
theorem c1_counterexample :
    (handleMsg eqState0 [[97], []] (fun _ => false)).2.resp.status
        = RespStatus.clientErr ClientErrMsg.emptyMessage ∧
    (handleMsg eqState0 [[97], []] (fun _ => false)).1.log.entries
        ≠ eqState0.log.entries := by
  refine ⟨by decide, by decide⟩

/-- C1 (amended): a message-write command rejected with CLIENT_ERR (empty
message among the arguments) or ERR (store write failure) leaves the
current id, the subscriptions and the stats unchanged, but the messages
preceding the failing one stay appended to the log: nothing is truncated. -/
theorem c1_amended_reject_keeps_prior_writes (st : EQState) (args : List (List Nat))
    (wfail : Nat → Bool) (h : (handleMsg st args wfail).2.resp.status ≠ RespStatus.ok) :
    (handleMsg st args wfail).1.currID = st.currID ∧
    (handleMsg st args wfail).1.subs = st.subs ∧
    (handleMsg st args wfail).1.stats = st.stats ∧
    ∃ t, (handleMsg st args wfail).1.log.entries = st.log.entries ++ t := by
  by_cases ha : args = []
  · simp [handleMsg, ha]
  · obtain ⟨t, ht⟩ := handleMsgLoop_entries_extend wfail args st.log (st.currID - 1) 0
    unfold handleMsg at h ⊢
    simp only [ha, if_false] at h ⊢
    cases ho : (handleMsgLoop wfail args st.log (st.currID - 1) 0).outcome with
    | emptyMsg => exact ⟨rfl, rfl, rfl, t, ht⟩
    | writeFail => exact ⟨rfl, rfl, rfl, t, ht⟩
    | success =>
      exfalso
      cases hp : publishMessages st.subs (handleMsgLoop wfail args st.log (st.currID - 1) 0).written with
      | none => simp [ho, hp] at h
      | some subs2 => simp [ho, hp] at h

/-- C1 witness: the amended statement applied at the counterexample input. -/
theorem c1_amended_witness :
    (handleMsg eqState0 [[97], []] (fun _ => false)).2.resp.status ≠ RespStatus.ok ∧
    (handleMsg eqState0 [[97], []] (fun _ => false)).1.currID = eqState0.currID :=
  ⟨by decide,
   (c1_amended_reject_keeps_prior_writes eqState0 [[97], []] (fun _ => false) (by decide)).1⟩

/- ===== C2: successive successful writes and their returned ids ===== -/

/-- C2 counterexample: two successive successful one-message writes return
ids 1 and 2; the increment is the message count of the second command, not
the byte length of the first command's wire form. -/
theorem c2_counterexample :
    (handleMsg eqState0 [[97, 98]] (fun _ => false)).2.resp.status = RespStatus.ok ∧
    (handleMsg (handleMsg eqState0 [[97, 98]] (fun _ => false)).1 [[99]]
        (fun _ => false)).2.resp.status = RespStatus.ok ∧
    (handleMsg (handleMsg eqState0 [[97, 98]] (fun _ => false)).1 [[99]]
        (fun _ => false)).2.resp.id ≠
      (handleMsg eqState0 [[97, 98]] (fun _ => false)).2.resp.id
        + (wireMsg 1 [97, 98]).length := by
  refine ⟨by decide, by decide, by decide⟩

/-- C2 (amended): for two successive successful write commands on the same
event queue returning ids o1 and o2, o2 = o1 plus the number of messages
in the second command (the returned values are message ids, not byte
offsets). -/
theorem c2_amended_successive_ids (st : EQState) (args1 args2 : List (List Nat))
    (wf1 wf2 : Nat → Bool)
    (h1 : (handleMsg st args1 wf1).2.resp.status = RespStatus.ok)
    (h2 : (handleMsg (handleMsg st args1 wf1).1 args2 wf2).2.resp.status = RespStatus.ok) :
    (handleMsg (handleMsg st args1 wf1).1 args2 wf2).2.resp.id
      = (handleMsg st args1 wf1).2.resp.id + args2.length := by
  obtain ⟨hi1, hc1⟩ := handleMsg_ok_id st args1 wf1 h1
  obtain ⟨hi2, _⟩ := handleMsg_ok_id _ args2 wf2 h2
  rw [hi2, hc1, hi1]
  omega

/-- C2 witness: the amended statement applied at concrete inputs. -/
theorem c2_amended_witness :
    (handleMsg (handleMsg eqState0 [[97, 98]] (fun _ => false)).1 [[99]]
        (fun _ => false)).2.resp.id
      = (handleMsg eqState0 [[97, 98]] (fun _ => false)).2.resp.id + 1 :=
  c2_amended_successive_ids eqState0 [[97, 98]] [[99]] (fun _ => false) (fun _ => false)
    (by decide) (by decide)

/-- Decidable equality for Except values, used by the concrete checks. -/
instance {e a : Type} [DecidableEq e] [DecidableEq a] : DecidableEq (Except e a) :=
  fun x y =>
    match x, y with
    | Except.error u, Except.error v =>
      (match decEq u v with
       | isTrue h => isTrue (by rw [h])
       | isFalse h => isFalse (fun hh => h (Except.error.inj hh)))
    | Except.ok u, Except.ok v =>
      (match decEq u v with
       | isTrue h => isTrue (by rw [h])
       | isFalse h => isFalse (fun hh => h (Except.ok.inj hh)))
    | Except.error _, Except.ok _ => isFalse (fun hh => by cases hh)
    | Except.ok _, Except.error _ => isFalse (fun hh => by cases hh)

/- ===== C3: READ with an unlocatable start ===== -/

/-- C3 counterexample: on an empty log the range for start id 5 fails, yet
the response delivered to the READ caller has status OK, not CLIENT_ERR
(the OK response is sent before the range is attempted). -/
theorem c3_counterexample :
    rangeLog eqState0.log 5 6 = Except.error () ∧
    (handleRead eqState0 "c" [encDec 5, encDec 1]).2.resp.status = RespStatus.ok ∧
    (handleRead eqState0 "c" [encDec 5, encDec 1]).2.resp.status ≠
      RespStatus.clientErr ClientErrMsg.invalid := by
  refine ⟨by decide, by decide, by decide⟩

/-- C3 (amended): when the range for a READ cannot be located, the OK
response carrying the reader channel has already been delivered; the
handler then terminates the stream with EOF and finishes the request.
CLIENT_ERR is delivered only when the READ arguments fail to parse. -/
theorem c3_amended_read_miss_ok_eof (st : EQState) (connID : String)
    (startID limit : Nat) (args : List (List Nat))
    (hmiss : rangeLog st.log startID (if limit = 0 then st.log.logID else startID + limit)
        = Except.error ())
    (hargs : parseRead args = none) :
    (doRead st connID startID limit).2 =
      ⟨⟨RespStatus.ok, 0, none, true⟩, [StreamEvent.eofMark], true⟩ ∧
    handleRead st connID args = (st, ⟨clientErrInvalidResp, [], false⟩) := by
  constructor
  · simp only [doRead, hmiss]
  · simp [handleRead, hargs]

/-- C3 witness: the amended statement applied at the counterexample input. -/
theorem c3_amended_witness :
    (doRead eqState0 "c" 5 1).2 =
      ⟨⟨RespStatus.ok, 0, none, true⟩, [StreamEvent.eofMark], true⟩ ∧
    handleRead eqState0 "c" [] = (eqState0, ⟨clientErrInvalidResp, [], false⟩) :=
  c3_amended_read_miss_ok_eof eqState0 "c" 5 1 [] (by decide) (by decide)

/- ===== C4: subscription registration by the read handler ===== -/

/-- C4 counterexample: a READ with limit 1 (nonzero) still records a
subscription for the connection, while the stream is terminated with EOF
and the request finished. -/
theorem c4_counterexample :
    subsGet (doRead eqState0 "c" 5 1).1.subs "c" = some ⟨⟨1000, []⟩⟩ ∧
    (doRead eqState0 "c" 5 1).2.finished = true ∧
    (doRead eqState0 "c" 5 1).2.stream = [StreamEvent.eofMark] := by
  refine ⟨by decide, by decide, by decide⟩

/-- C4 (amended): the read handler registers a subscription for the
requesting connection on every read, whatever the limit, before the range
is attempted; when the limit is nonzero the reader stream is terminated
with EOF and the request is finished, but the subscription remains
recorded. -/
theorem c4_amended_always_subscribes (st : EQState) (connID : String)
    (startID limit : Nat) :
    subsGet (doRead st connID startID limit).1.subs connID = some ⟨⟨1000, []⟩⟩ ∧
    (limit ≠ 0 →
      (doRead st connID startID limit).2.stream.getLast? = some StreamEvent.eofMark ∧
      (doRead st connID startID limit).2.finished = true) := by
  unfold doRead
  rcases hr : rangeLog st.log startID (if limit = 0 then st.log.logID else startID + limit)
    with e | found
  · simp [hr, subsGet_subsSet]
  · by_cases hl : limit = 0
    · simp only [hl, if_pos] at hr
      simp [hl, hr, subsGet_subsSet]
    · rw [if_neg hl] at hr
      simp [hl, hr, subsGet_subsSet, List.getLast?_concat]

/-- C4 witness: the amended statement applied at a nonzero limit. -/
theorem c4_amended_witness :
    subsGet (doRead eqState0 "c" 5 1).1.subs "c" = some ⟨⟨1000, []⟩⟩ ∧
    ((doRead eqState0 "c" 5 1).2.stream.getLast? = some StreamEvent.eofMark ∧
     (doRead eqState0 "c" 5 1).2.finished = true) :=
  ⟨(c4_amended_always_subscribes eqState0 "c" 5 1).1,
   (c4_amended_always_subscribes eqState0 "c" 5 1).2 (by decide)⟩

/- ===== C5: sends to a full subscriber channel ===== -/

/-- C5 counterexample: a send on a full subscriber channel (capacity 1,
one buffered item) blocks the sender; it is not dropped and no done signal
fires. -/
theorem c5_counterexample :
    (⟨⟨1, [[97]]⟩⟩ : Subscription).readerC.cap ≤
      (⟨⟨1, [[97]]⟩⟩ : Subscription).readerC.buf.length ∧
    subscriptionSend ⟨⟨1, [[97]]⟩⟩ [98] = SendOutcome.blocked := by
  refine ⟨by decide, by decide⟩

/-- C5 (amended): Subscription.send is a plain bounded-channel send: when
the reader channel is full the event queue blocks until the subscriber
drains (the subscription is not dropped and no done signal is fired by the
send); otherwise the message is buffered. -/
theorem c5_amended_full_channel_send_blocks (sub : Subscription) (msg : List Nat) :
    (sub.readerC.cap ≤ sub.readerC.buf.length →
      subscriptionSend sub msg = SendOutcome.blocked) ∧
    (sub.readerC.buf.length < sub.readerC.cap →
      subscriptionSend sub msg =
        SendOutcome.delivered ⟨sub.readerC.cap, sub.readerC.buf ++ [msg]⟩) := by
  constructor
  · intro h
    unfold subscriptionSend chanSend
    rw [if_neg (by omega)]
  · intro h
    unfold subscriptionSend chanSend
    rw [if_pos h]

/-- C5 witness: the amended statement applied to a full and a non-full
channel. -/
theorem c5_amended_witness :
    subscriptionSend ⟨⟨1, [[97]]⟩⟩ [98] = SendOutcome.blocked ∧
    subscriptionSend ⟨⟨1, []⟩⟩ [98] = SendOutcome.delivered ⟨1, [[98]]⟩ :=
  ⟨(c5_amended_full_channel_send_blocks ⟨⟨1, [[97]]⟩⟩ [98]).1 (by decide),
   (c5_amended_full_channel_send_blocks ⟨⟨1, []⟩⟩ [98]).2 (by decide)⟩

/- ===== C8: unknown command names ===== -/

/-- C8 counterexample: a command whose name is none of the recognized ones
is answered with ERR, which is not CLIENT_ERR with any payload. -/
theorem c8_counterexample :
    (loopDispatch eqState0 ⟨CmdName.other 99, [], "c"⟩ (fun _ => false) false).2.resp.status
        = RespStatus.err ∧
    RespStatus.err ≠ RespStatus.clientErr ClientErrMsg.invalid ∧
    RespStatus.err ≠ RespStatus.clientErr ClientErrMsg.noArguments ∧
    RespStatus.err ≠ RespStatus.clientErr ClientErrMsg.emptyMessage := by
  refine ⟨by decide, by decide, by decide, by decide⟩

/-- C8 (amended): the loop's default case answers any unrecognized command
name with a plain ERR response and leaves the state unchanged. -/
theorem c8_amended_unknown_cmd_err (st : EQState) (n : Nat) (args : List (List Nat))
    (connID : String) (wfail : Nat → Bool) (sf : Bool) :
    loopDispatch st ⟨CmdName.other n, args, connID⟩ wfail sf = (st, respOnly respErrPlain) := rfl

/- ===== C10: argument-carrying HEAD, STATS, PING, CLOSE ===== -/

/-- C10: a HEAD, STATS, PING or CLOSE command carrying one or more
arguments is answered CLIENT_ERR and the state — log, subscriptions, stats
and current id — is untouched. -/
theorem c10_args_client_err_no_state_change (st : EQState) (connID : String)
    (args : List (List Nat)) (h : args ≠ []) :
    handleHead st args = (st, clientErrInvalidResp) ∧
    handleStats st args = (st, clientErrInvalidResp) ∧
    handlePing st args = (st, clientErrInvalidResp) ∧
    handleClose st connID args = (st, clientErrInvalidResp) := by
  refine ⟨?_, ?_, ?_, ?_⟩ <;>
    simp [handleHead, handleStats, handlePing, handleClose, h]

/-- C10 witness: the statement applied to a one-argument command. -/
theorem c10_witness :
    ([[48]] : List (List Nat)) ≠ [] ∧
    handleHead eqState0 [[48]] = (eqState0, clientErrInvalidResp) :=
  ⟨by decide, (c10_args_client_err_no_state_change eqState0 "c" [[48]] (by decide)).1⟩

/- ===== Client read path (client package, Client.ReadOffset) ===== -/

/-- Errors surfaced by the client read path: protocol.ErrInternal, a
transport failure, or an error code carried by the server response. -/
inductive CliErr
  | internal
  | transport
  | respCode (n : Nat)
  deriving DecidableEq

/-- Client.ReadOffset: send the READ request; on success read the batch
response; if the response offset differs from the requested one fail with
ErrInternal, otherwise reset the batch scanner onto the connection and
return the batch count (the Bool records that the scanner was handed out).
sendResult and respResult stand for the outcomes of send and
readBatchResponse on the wire. -/
def readOffset (offset : Nat) (sendResult : Option CliErr)
    (respResult : Except CliErr (Nat × Nat)) : Except CliErr (Nat × Bool) :=
  match sendResult with
  | some e => Except.error e
  | none =>
    match respResult with
    | Except.error e => Except.error e
    | Except.ok (respOff, nbatches) =>
      if respOff ≠ offset then Except.error CliErr.internal
      else Except.ok (nbatches, true)

/-- C9: ReadOffset fails with ErrInternal whenever the response offset
differs from the requested offset, and succeeds only when they are equal,
in which case the batch count comes from the response and the scanner is
handed out. -/
theorem c9_read_offset_requires_matching_offset (offset : Nat)
    (sendResult : Option CliErr) (respResult : Except CliErr (Nat × Nat)) :
    (∀ respOff nbatches, sendResult = none →
      respResult = Except.ok (respOff, nbatches) → respOff ≠ offset →
      readOffset offset sendResult respResult = Except.error CliErr.internal) ∧
    (∀ out, readOffset offset sendResult respResult = Except.ok out →
      respResult = Except.ok (offset, out.1) ∧ out.2 = true) := by
  constructor
  · intro respOff nbatches hs hr hne
    subst hs
    subst hr
    simp [readOffset, hne]
  · intro out hout
    cases hs : sendResult with
    | some e => simp [readOffset, hs] at hout
    | none =>
      subst hs
      cases hr : respResult with
      | error e => simp [readOffset, hr] at hout
      | ok p =>
        obtain ⟨po, pn⟩ := p
        subst hr
        by_cases hne : po = offset
        · subst hne
          simp only [readOffset] at hout
          rw [if_neg (by simp)] at hout
          injection hout with h
          subst h
          exact ⟨rfl, rfl⟩
        · simp [readOffset, hne] at hout

/-- C9 witness: the statement applied to a mismatching and a matching
response. -/
theorem c9_witness :
    readOffset 4 none (Except.ok (9, 2)) = Except.error CliErr.internal ∧
    ((Except.ok (4, 2) : Except CliErr (Nat × Nat)) = Except.ok (4, 2) ∧ true = true) :=
  ⟨(c9_read_offset_requires_matching_offset 4 none (Except.ok (9, 2))).1 9 2 rfl rfl
      (by decide),
   (c9_read_offset_requires_matching_offset 4 none (Except.ok (4, 2))).2 (2, true)
      (by decide)⟩

/- ===== Handlers multiplexer (events.Handlers, src/unnamed/part_001) ===== -/

/-- Request names at the multiplexer: the three blocking commands plus
everything else. -/
inductive ReqName
  | batch
  | read
  | tail
  | other (n : Nat)
  deriving DecidableEq

/-- The blockingReqs map: BATCH, READ and TAIL are blocking. -/
def blockingReqs (n : ReqName) : Bool :=
  match n with
  | ReqName.batch => true
  | ReqName.read => true
  | ReqName.tail => true
  | ReqName.other _ => false

/-- Multiplexer state: the topics that currently have a started event
queue (the keys of the h map). -/
structure HandlersState where
  topics : List String
  deriving DecidableEq

/-- Where a request was forwarded. -/
inductive Route
  | topicQueue (name : String) (created : Bool)
  | asyncQueue
  deriving DecidableEq

/-- Handlers.pushBlockingRequest: an empty topic goes to the asyncQ; an
existing queue receives the request; a BATCH for an unknown topic creates
the topic (directory and event queue, modelled as succeeding), starts and
stores the queue and forwards to it; other blocking commands on unknown
topics go to the asyncQ. -/
def pushBlockingRequest (st : HandlersState) (name : ReqName) (topic : String) :
    HandlersState × Route :=
  if topic = "" then (st, Route.asyncQueue)
  else if topic ∈ st.topics then (st, Route.topicQueue topic false)
  else if name = ReqName.batch then
    (⟨st.topics ++ [topic]⟩, Route.topicQueue topic true)
  else (st, Route.asyncQueue)

/-- Handlers.PushRequest: blocking requests go through
pushBlockingRequest, everything else to the asyncQ. -/
def pushRequest (st : HandlersState) (name : ReqName) (topic : String) :
    HandlersState × Route :=
  if blockingReqs name then pushBlockingRequest st name topic
  else (st, Route.asyncQueue)

/-- C7: PushRequest routes a blocking request with a nonempty topic to
that topic's queue, creating one only for BATCH on an unknown topic;
READ and TAIL on unknown topics, blocking requests with an empty topic,
and non-blocking requests all go to the asyncQ, and only the BATCH-on-new-
topic case changes the topic map. -/
theorem c7_push_request_routing (st : HandlersState) (name : ReqName) (topic : String) :
    (blockingReqs name = false → pushRequest st name topic = (st, Route.asyncQueue)) ∧
    (blockingReqs name = true → topic = "" →
      pushRequest st name topic = (st, Route.asyncQueue)) ∧
    (blockingReqs name = true → topic ≠ "" → topic ∈ st.topics →
      pushRequest st name topic = (st, Route.topicQueue topic false)) ∧
    (topic ≠ "" → ¬ topic ∈ st.topics → name = ReqName.batch →
      pushRequest st name topic = (⟨st.topics ++ [topic]⟩, Route.topicQueue topic true)) ∧
    (blockingReqs name = true → name ≠ ReqName.batch → ¬ topic ∈ st.topics →
      pushRequest st name topic = (st, Route.asyncQueue)) ∧
    ((pushRequest st name topic).1 = st ∨
      (name = ReqName.batch ∧ topic ≠ "" ∧ ¬ topic ∈ st.topics ∧
        (pushRequest st name topic).1 = ⟨st.topics ++ [topic]⟩)) := by
  refine ⟨?_, ?_, ?_, ?_, ?_, ?_⟩
  · intro h
    simp [pushRequest, h]
  · intro hb ht
    simp [pushRequest, pushBlockingRequest, hb, ht]
  · intro hb ht hmem
    simp [pushRequest, pushBlockingRequest, hb, ht, hmem]
  · intro ht hmem hn
    subst hn
    simp [pushRequest, pushBlockingRequest, blockingReqs, ht, hmem]
  · intro hb hn hmem
    by_cases ht : topic = ""
    · simp [pushRequest, pushBlockingRequest, hb, ht]
    · simp [pushRequest, pushBlockingRequest, hb, ht, hmem, hn]
  · by_cases hb : blockingReqs name
    · by_cases ht : topic = ""
      · simp [pushRequest, pushBlockingRequest, hb, ht]
      · by_cases hmem : topic ∈ st.topics
        · simp [pushRequest, pushBlockingRequest, hb, ht, hmem]
        · by_cases hn : name = ReqName.batch
          · right
            refine ⟨hn, ht, hmem, ?_⟩
            simp [pushRequest, pushBlockingRequest, blockingReqs, hb, ht, hmem, hn]
          · simp [pushRequest, pushBlockingRequest, hb, ht, hmem, hn]
    · simp [pushRequest, hb]

/-- C7 witness: the routing statement applied to concrete requests. -/
theorem c7_witness :
    pushRequest ⟨["t"]⟩ ReqName.read "t" = (⟨["t"]⟩, Route.topicQueue "t" false) ∧
    pushRequest ⟨[]⟩ ReqName.batch "t" = (⟨["t"]⟩, Route.topicQueue "t" true) ∧
    pushRequest ⟨[]⟩ ReqName.tail "t" = (⟨[]⟩, Route.asyncQueue) ∧
    pushRequest ⟨[]⟩ (ReqName.other 7) "t" = (⟨[]⟩, Route.asyncQueue) :=
  ⟨(c7_push_request_routing ⟨["t"]⟩ ReqName.read "t").2.2.1 (by decide) (by decide)
      (by decide),
   (c7_push_request_routing ⟨[]⟩ ReqName.batch "t").2.2.2.1 (by decide) (by decide) rfl,
   (c7_push_request_routing ⟨[]⟩ ReqName.tail "t").2.2.2.2.1 (by decide) (by decide)
      (by decide),
   (c7_push_request_routing ⟨[]⟩ (ReqName.other 7) "t").1 (by decide)⟩

/- ===== CRC-32 single-bit-flip lemmas ===== -/

/-- Numbers below 2^31 get bit 31 set when xored with the polynomial. -/
theorem testBit31_of_xor_poly (a : Nat) (ha : a < 2 ^ 31) :
    (a ^^^ crcPoly).testBit 31 = true := by
  rw [Nat.testBit_xor, Nat.testBit_lt_two_pow ha]
  decide

/-- A CRC round keeps values inside 32 bits. -/
theorem crcRound_lt (c : Nat) (h : c < 2 ^ 32) : crcRound c < 2 ^ 32 := by
  unfold crcRound
  by_cases hp : c % 2 = 1
  · rw [if_pos hp]
    exact Nat.xor_lt_two_pow (by omega) (by decide)
  · rw [if_neg hp]
    omega

/-- A CRC round is injective on 32-bit values. -/
theorem crcRound_inj (c1 c2 : Nat) (h1 : c1 < 2 ^ 32) (h2 : c2 < 2 ^ 32)
    (h : crcRound c1 = crcRound c2) : c1 = c2 := by
  unfold crcRound at h
  by_cases p1 : c1 % 2 = 1 <;> by_cases p2 : c2 % 2 = 1
  · rw [if_pos p1, if_pos p2] at h
    have := Nat.xor_left_inj.mp h
    omega
  · rw [if_pos p1, if_neg p2] at h
    exfalso
    have hb : ((c1 / 2) ^^^ crcPoly).testBit 31 = true := testBit31_of_xor_poly _ (by omega)
    rw [h, Nat.testBit_lt_two_pow (by omega : c2 / 2 < 2 ^ 31)] at hb
    exact Bool.noConfusion hb
  · rw [if_neg p1, if_pos p2] at h
    exfalso
    have hb : ((c2 / 2) ^^^ crcPoly).testBit 31 = true := testBit31_of_xor_poly _ (by omega)
    rw [← h, Nat.testBit_lt_two_pow (by omega : c1 / 2 < 2 ^ 31)] at hb
    exact Bool.noConfusion hb
  · rw [if_neg p1, if_neg p2] at h
    omega

/-- Iterated CRC rounds keep values inside 32 bits. -/
theorem crcRounds_lt (n : Nat) : ∀ c, c < 2 ^ 32 → crcRounds n c < 2 ^ 32 := by
  induction n with
  | zero =>
    intro c h
    simpa [crcRounds] using h
  | succ m ih =>
    intro c h
    exact ih _ (crcRound_lt c h)

/-- Iterated CRC rounds are injective on 32-bit values. -/
theorem crcRounds_inj (n : Nat) : ∀ c1 c2, c1 < 2 ^ 32 → c2 < 2 ^ 32 →
    crcRounds n c1 = crcRounds n c2 → c1 = c2 := by
  induction n with
  | zero =>
    intro c1 c2 _ _ h
    simpa [crcRounds] using h
  | succ m ih =>
    intro c1 c2 h1 h2 h
    exact crcRound_inj c1 c2 h1 h2 (ih _ _ (crcRound_lt c1 h1) (crcRound_lt c2 h2) h)

/-- The per-byte CRC update keeps values inside 32 bits. -/
theorem crcByte_lt (c b : Nat) (hc : c < 2 ^ 32) (hb : b < 2 ^ 32) : crcByte c b < 2 ^ 32 :=
  crcRounds_lt 8 _ (Nat.xor_lt_two_pow hc hb)

/-- The per-byte CRC update is injective in the accumulator. -/
theorem crcByte_inj_left (c1 c2 b : Nat) (h1 : c1 < 2 ^ 32) (h2 : c2 < 2 ^ 32)
    (hb : b < 2 ^ 32) (h : crcByte c1 b = crcByte c2 b) : c1 = c2 := by
  have hx := crcRounds_inj 8 _ _ (Nat.xor_lt_two_pow h1 hb) (Nat.xor_lt_two_pow h2 hb) h
  exact Nat.xor_left_inj.mp hx

/-- The per-byte CRC update separates distinct bytes. -/
theorem crcByte_ne_right (c b1 b2 : Nat) (hc : c < 2 ^ 32) (hb1 : b1 < 2 ^ 32)
    (hb2 : b2 < 2 ^ 32) (hne : b1 ≠ b2) : crcByte c b1 ≠ crcByte c b2 := by
  intro h
  have hx := crcRounds_inj 8 _ _ (Nat.xor_lt_two_pow hc hb1) (Nat.xor_lt_two_pow hc hb2) h
  exact hne (Nat.xor_right_inj.mp hx)

/-- The running CRC keeps values inside 32 bits on byte input. -/
theorem crcAcc_lt : ∀ (l : List Nat) (a : Nat), a < 2 ^ 32 → (∀ b ∈ l, b < 256) →
    crcAcc a l < 2 ^ 32 := by
  intro l
  induction l with
  | nil =>
    intro a ha _
    simpa [crcAcc] using ha
  | cons b rest ih =>
    intro a ha hl
    have hb : b < 256 := hl b (by simp)
    have hstep : crcByte a b < 2 ^ 32 := crcByte_lt a b ha (by omega)
    simpa [crcAcc] using ih (crcByte a b) hstep (fun x hx => hl x (by simp [hx]))

/-- The running CRC is injective in the starting accumulator. -/
theorem crcAcc_inj : ∀ (l : List Nat) (a1 a2 : Nat), a1 < 2 ^ 32 → a2 < 2 ^ 32 →
    (∀ b ∈ l, b < 256) → crcAcc a1 l = crcAcc a2 l → a1 = a2 := by
  intro l
  induction l with
  | nil =>
    intro a1 a2 _ _ _ h
    simpa [crcAcc] using h
  | cons b rest ih =>
    intro a1 a2 h1 h2 hl h
    have hb : b < 256 := hl b (by simp)
    have hfold : crcAcc (crcByte a1 b) rest = crcAcc (crcByte a2 b) rest := by
      simpa [crcAcc] using h
    have hacc := ih _ _ (crcByte_lt a1 b h1 (by omega)) (crcByte_lt a2 b h2 (by omega))
      (fun x hx => hl x (by simp [hx])) hfold
    exact crcByte_inj_left a1 a2 b h1 h2 (by omega) hacc

/-- Flip bit k of a byte. -/
def flipBit (b k : Nat) : Nat := b ^^^ 2 ^ k

/-- Flip bit k of the i-th byte of a byte string. -/
def flipAt (l : List Nat) (i k : Nat) : List Nat := l.set i (flipBit (l.getD i 0) k)

/-- Flipping a bit changes the byte. -/
theorem flipBit_ne (b k : Nat) : flipBit b k ≠ b := by
  unfold flipBit
  intro he
  have h0 : b ^^^ 2 ^ k = b ^^^ 0 := by simpa using he
  have h1 : (2 : Nat) ^ k = 0 := Nat.xor_right_inj.mp h0
  have h2 : 0 < (2 : Nat) ^ k := Nat.pow_pos (by omega)
  omega

/-- Flipping one of the low eight bits keeps a byte below 256. -/
theorem flipBit_lt (b k : Nat) (hb : b < 256) (hk : k < 8) : flipBit b k < 256 := by
  have hp : (2 : Nat) ^ k < 2 ^ 8 := Nat.pow_lt_pow_right (by omega) hk
  have hx : b ^^^ 2 ^ k < 2 ^ 8 := Nat.xor_lt_two_pow (by omega) hp
  simpa [flipBit] using hx

/-- A single bit flip anywhere in the input changes the running CRC. -/
theorem crcAcc_flip_ne : ∀ (l : List Nat) (a i k : Nat), i < l.length → k < 8 →
    a < 2 ^ 32 → (∀ b ∈ l, b < 256) → crcAcc a (flipAt l i k) ≠ crcAcc a l := by
  intro l
  induction l with
  | nil =>
    intro a i k hi
    simp at hi
  | cons b rest ih =>
    intro a i k hi hk ha hl
    have hb : b < 256 := hl b (by simp)
    cases i with
    | zero =>
      have hfa : flipAt (b :: rest) 0 k = flipBit b k :: rest := by
        simp [flipAt, List.set]
      rw [hfa]
      intro h
      have h2 : crcAcc (crcByte a (flipBit b k)) rest = crcAcc (crcByte a b) rest := by
        simpa [crcAcc] using h
      have hflip : flipBit b k < 256 := flipBit_lt b k hb hk
      have heq := crcAcc_inj rest _ _ (crcByte_lt a _ ha (by omega))
        (crcByte_lt a b ha (by omega)) (fun x hx => hl x (by simp [hx])) h2
      exact crcByte_ne_right a _ b ha (by omega) (by omega) (flipBit_ne b k) heq
    | succ j =>
      have hfa : flipAt (b :: rest) (j + 1) k = b :: flipAt rest j k := by
        simp [flipAt, List.set, List.getD]
      rw [hfa]
      intro h
      have h2 : crcAcc (crcByte a b) (flipAt rest j k) = crcAcc (crcByte a b) rest := by
        simpa [crcAcc] using h
      exact ih (crcByte a b) j k (by simpa using hi) hk
        (crcByte_lt a b ha (by omega)) (fun x hx => hl x (by simp [hx])) h2

/-- A single bit flip anywhere in the body changes its CRC-32. -/
theorem crc32_flip_ne (l : List Nat) (i k : Nat) (hi : i < l.length) (hk : k < 8)
    (hl : ∀ b ∈ l, b < 256) : crc32 (flipAt l i k) ≠ crc32 l := by
  unfold crc32
  intro h
  exact crcAcc_flip_ne l 0xFFFFFFFF i k hi hk (by norm_num) hl (Nat.xor_left_inj.mp h)

/- ===== Protocol scanner (src/protocol/scanner.go, Scanner.ReadMessage) ===== -/

/-- Split a byte stream at the first CRLF: the line before it and the rest
after it. This models protocol.ReadLine, whose source is not in the
snapshot (the spec says lines are CRLF-terminated). -/
def splitCRLF : List Nat → Option (List Nat × List Nat)
  | [] => none
  | c :: rest =>
    if c = 13 ∧ rest.head? = some 10 then some ([], rest.tail)
    else (splitCRLF rest).map (fun p => (c :: p.1, p.2))

/-- Whether a byte string contains a CRLF pair. -/
def hasCRLF (l : List Nat) : Bool := (splitCRLF l).isSome

/-- bytes.TrimRight(body, CRLF cutset): drop trailing CR and LF bytes. -/
def trimRightCRLF (l : List Nat) : List Nat :=
  (l.reverse.dropWhile (fun c => c == 13 || c == 10)).reverse

/-- Split at the first separator byte. -/
def splitOnce (sep : Nat) : List Nat → Option (List Nat × List Nat)
  | [] => none
  | c :: rest =>
    if c = sep then some ([], rest)
    else (splitOnce sep rest).map (fun p => (c :: p.1, p.2))

/-- bytes.SplitN(line, sep, 4): up to four fields, the last keeping the
remainder, fewer when fewer separators occur. -/
def splitN4 (sep : Nat) (s : List Nat) : List (List Nat) :=
  match splitOnce sep s with
  | none => [s]
  | some p1 =>
    match splitOnce sep p1.2 with
    | none => [p1.1, p1.2]
    | some p2 =>
      match splitOnce sep p2.2 with
      | none => [p1.1, p2.1, p2.2]
      | some p3 => [p1.1, p2.1, p3.1, p3.2]

/-- Scanner read errors: io.EOF on the +EOF sentinel, a missing line
terminator, errInvalidProtocolLine, the three field-scan failures,
errInvalidBodyLength and errCrcChecksumMismatch. -/
inductive ScanErr
  | readEOF
  | lineMissing
  | invalidProtocolLine
  | idScanFail
  | lenScanFail
  | crcScanFail
  | invalidBodyLength
  | crcMismatch
  deriving DecidableEq

/-- A scanned message: id and body (CRLF-trimmed). -/
structure ScanMsg where
  id : Nat
  body : List Nat
  deriving DecidableEq

/-- Scanner.ReadMessage: read one CRLF line, handle the +EOF sentinel,
split into four space-separated fields, parse id (64-bit unsigned), body
length (64-bit signed) and checksum (32-bit unsigned), check the declared
length against the body field, then the IEEE CRC-32 against the declared
checksum, and return the read count and the trimmed message. -/
def ReadMessage (stream : List Nat) : Except ScanErr (Nat × ScanMsg) :=
  match splitCRLF stream with
  | none => Except.error ScanErr.lineMissing
  | some (line, _) =>
    if line = [43, 69, 79, 70] then Except.error ScanErr.readEOF
    else
      match splitN4 32 line with
      | [p0, p1, p2, p3] =>
        (match parseUint 64 p0 with
         | none => Except.error ScanErr.idScanFail
         | some id =>
           (match parseInt64 p1 with
            | none => Except.error ScanErr.lenScanFail
            | some blen =>
              (match parseUint 32 p2 with
               | none => Except.error ScanErr.crcScanFail
               | some ck =>
                 if blen ≠ (p3.length : Int) then Except.error ScanErr.invalidBodyLength
                 else if crc32 p3 ≠ ck then Except.error ScanErr.crcMismatch
                 else Except.ok (line.length + 2, ⟨id, trimRightCRLF p3⟩))))
      | _ => Except.error ScanErr.invalidProtocolLine

/-- One wire log line (four space-separated fields and a CRLF terminator)
followed by the rest of the stream. -/
def mkStream (idS lenS ckS body rest : List Nat) : List Nat :=
  idS ++ 32 :: (lenS ++ 32 :: (ckS ++ 32 :: (body ++ 13 :: 10 :: rest)))

/- ===== CRLF and separator splitting lemmas ===== -/

/-- A successful CRLF split decomposes the input. -/
theorem splitCRLF_eq_parts : ∀ (t p q : List Nat), splitCRLF t = some (p, q) →
    t = p ++ 13 :: 10 :: q := by
  intro t
  induction t with
  | nil =>
    intro p q h
    simp [splitCRLF] at h
  | cons c rest ih =>
    intro p q h
    simp only [splitCRLF] at h
    by_cases hc : c = 13 ∧ rest.head? = some 10
    · rw [if_pos hc] at h
      injection h with h
      cases h
      cases rest with
      | nil => simp at hc
      | cons d rest2 =>
        have hd : d = 10 := by simpa using hc.2
        simp [hc.1, hd]
    · rw [if_neg hc] at h
      obtain ⟨pr, hpr, hf⟩ := Option.map_eq_some'.mp h
      cases hf
      have := ih pr.1 pr.2 (by simpa using hpr)
      simp [this]

/-- A byte string without CR cannot contain a CRLF. -/
theorem splitCRLF_none_of_no13 : ∀ (l : List Nat), (∀ c ∈ l, c ≠ 13) →
    splitCRLF l = none := by
  intro l
  induction l with
  | nil => intro _; rfl
  | cons c rest ih =>
    intro h
    have hc : c ≠ 13 := h c (by simp)
    simp only [splitCRLF]
    rw [if_neg (fun hcc => hc hcc.1), ih (fun x hx => h x (by simp [hx]))]
    rfl

/-- Prepending a CRLF-free block shifts the CRLF split, provided no CRLF
straddles the boundary. -/
theorem splitCRLF_append (l : List Nat) :
    ∀ (t : List Nat), splitCRLF l = none →
      (l.getLast? ≠ some 13 ∨ t.head? ≠ some 10) →
      splitCRLF (l ++ t) = (splitCRLF t).map (fun p => (l ++ p.1, p.2)) := by
  induction l with
  | nil =>
    intro t _ _
    simp only [List.nil_append]
    cases h : splitCRLF t <;> simp [h]
  | cons c rest ih =>
    intro t hnone hb
    simp only [splitCRLF] at hnone
    by_cases hc : c = 13 ∧ rest.head? = some 10
    · rw [if_pos hc] at hnone
      exact absurd hnone (by simp)
    · rw [if_neg hc] at hnone
      have hrest : splitCRLF rest = none := by
        cases hsp : splitCRLF rest with
        | none => rfl
        | some pr =>
          rw [hsp] at hnone
          simp at hnone
      have hcond : ¬(c = 13 ∧ (rest ++ t).head? = some 10) := by
        cases rest with
        | nil =>
          rintro ⟨hc13, hht⟩
          rcases hb with hl13 | hr
          · exact hl13 (by simp [hc13])
          · exact hr (by simpa using hht)
        | cons d rest2 =>
          rintro ⟨hc13, hhd⟩
          exact hc ⟨hc13, by simpa using hhd⟩
      have hbnd : rest.getLast? ≠ some 13 ∨ t.head? ≠ some 10 := by
        cases rest with
        | nil => exact Or.inl (by simp)
        | cons d rest2 =>
          rcases hb with h13 | ht
          · exact Or.inl (by simpa [List.getLast?_cons_cons] using h13)
          · exact Or.inr ht
      simp only [List.cons_append, splitCRLF, List.append_eq]
      rw [if_neg hcond, ih t hrest hbnd]
      cases h : splitCRLF t <;> simp [h]

/-- Appending after an existing CRLF extends only the remainder. -/
theorem splitCRLF_append_left : ∀ (t u p q : List Nat), splitCRLF t = some (p, q) →
    splitCRLF (t ++ u) = some (p, q ++ u) := by
  intro t
  induction t with
  | nil =>
    intro u p q h
    simp [splitCRLF] at h
  | cons c rest ih =>
    intro u p q h
    simp only [splitCRLF] at h
    simp only [List.cons_append, splitCRLF, List.append_eq]
    by_cases hc : c = 13 ∧ rest.head? = some 10
    · rw [if_pos hc] at h
      injection h with h
      cases h
      have hcond : c = 13 ∧ (rest ++ u).head? = some 10 := by
        cases rest with
        | nil => simp at hc
        | cons d r2 => exact ⟨hc.1, by simpa using hc.2⟩
      rw [if_pos hcond]
      cases rest with
      | nil => simp at hc
      | cons d r2 => simp
    · rw [if_neg hc] at h
      obtain ⟨pr, hpr, hf⟩ := Option.map_eq_some'.mp h
      cases hf
      have hcond : ¬(c = 13 ∧ (rest ++ u).head? = some 10) := by
        rintro ⟨h13, hh⟩
        cases rest with
        | nil => simp [splitCRLF] at hpr
        | cons d r2 => exact hc ⟨h13, by simpa using hh⟩
      rw [if_neg hcond, ih u pr.1 pr.2 (by simpa using hpr)]
      rfl

/-- Splitting at the first separator after a separator-free block. -/
theorem splitOnce_append (sep : Nat) : ∀ (a r : List Nat), (∀ c ∈ a, c ≠ sep) →
    splitOnce sep (a ++ sep :: r) = some (a, r) := by
  intro a
  induction a with
  | nil =>
    intro r _
    simp [splitOnce]
  | cons c a2 ih =>
    intro r h
    have hc : c ≠ sep := h c (by simp)
    simp only [List.cons_append, splitOnce, List.append_eq]
    rw [if_neg hc, ih r (fun x hx => h x (by simp [hx]))]
    rfl

/-- SplitN with limit four on a line with exactly three separator-free
fields before the remainder. -/
theorem splitN4_fields (a b c d : List Nat)
    (ha : ∀ x ∈ a, x ≠ 32) (hb : ∀ x ∈ b, x ≠ 32) (hc : ∀ x ∈ c, x ≠ 32) :
    splitN4 32 (a ++ 32 :: (b ++ 32 :: (c ++ 32 :: d))) = [a, b, c, d] := by
  have h1 := splitOnce_append 32 a (b ++ 32 :: (c ++ 32 :: d)) ha
  have h2 := splitOnce_append 32 b (c ++ 32 :: d) hb
  have h3 := splitOnce_append 32 c d hc
  simp [splitN4, h1, h2, h3]

/-- A successful unsigned parse means a nonempty all-digit string. -/
theorem parseDecAux_digits : ∀ (s : List Nat) (acc v : Nat), parseDecAux s acc = some v →
    ∀ c ∈ s, 48 ≤ c ∧ c ≤ 57 := by
  intro s
  induction s with
  | nil =>
    intro acc v _ c hc
    simp at hc
  | cons d rest ih =>
    intro acc v h c hc
    simp only [parseDecAux] at h
    by_cases hd : 48 ≤ d ∧ d ≤ 57
    · rw [if_pos hd] at h
      rcases List.mem_cons.mp hc with rfl | hmem
      · exact hd
      · exact ih _ v h c hmem
    · rw [if_neg hd] at h
      exact absurd h (by simp)

/-- parseUint succeeds only on nonempty all-digit strings. -/
theorem parseUint_digits (bits : Nat) (s : List Nat) (v : Nat)
    (h : parseUint bits s = some v) :
    s ≠ [] ∧ ∀ c ∈ s, 48 ≤ c ∧ c ≤ 57 := by
  cases s with
  | nil => simp [parseUint] at h
  | cons c rest =>
    refine ⟨by simp, ?_⟩
    simp only [parseUint] at h
    cases haux : parseDecAux (c :: rest) 0 with
    | none =>
      rw [haux] at h
      simp at h
    | some w => exact parseDecAux_digits _ _ _ haux

/-- The field prefix of a wire line (digits and spaces) holds no CR byte. -/
theorem no13_fields (idS lenS ckS : List Nat)
    (hid : ∀ c ∈ idS, 48 ≤ c ∧ c ≤ 57)
    (hlen : ∀ c ∈ lenS, 48 ≤ c ∧ c ≤ 57)
    (hck : ∀ c ∈ ckS, 48 ≤ c ∧ c ≤ 57) :
    ∀ c ∈ idS ++ 32 :: (lenS ++ 32 :: (ckS ++ [32])), c ≠ 13 := by
  intro c hc
  have hsplit : c ∈ idS ∨ c = 32 ∨ c ∈ lenS ∨ c = 32 ∨ c ∈ ckS ∨ c = 32 := by
    simpa using hc
  rcases hsplit with h | h | h | h | h | h
  · rcases hid c h with ⟨h1, h2⟩
    omega
  · omega
  · rcases hlen c h with ⟨h1, h2⟩
    omega
  · omega
  · rcases hck c h with ⟨h1, h2⟩
    omega
  · omega

/-- The CRLF split of a well-formed wire line takes exactly the four
fields as the line and leaves the rest of the stream. -/
theorem splitCRLF_mkStream (idS lenS ckS body rest : List Nat)
    (hid : ∀ c ∈ idS, 48 ≤ c ∧ c ≤ 57)
    (hlen : ∀ c ∈ lenS, 48 ≤ c ∧ c ≤ 57)
    (hck : ∀ c ∈ ckS, 48 ≤ c ∧ c ≤ 57)
    (hbody : splitCRLF body = none) :
    splitCRLF (mkStream idS lenS ckS body rest) =
      some (idS ++ 32 :: (lenS ++ 32 :: (ckS ++ 32 :: body)), rest) := by
  have hpre13 := no13_fields idS lenS ckS hid hlen hck
  have hpreNone := splitCRLF_none_of_no13 _ hpre13
  have hpreLast : (idS ++ 32 :: (lenS ++ 32 :: (ckS ++ [32]))).getLast? = some 32 := by
    have hrw : idS ++ 32 :: (lenS ++ 32 :: (ckS ++ [32]))
        = (idS ++ 32 :: (lenS ++ 32 :: ckS)) ++ [32] := by
      simp
    rw [hrw, List.getLast?_concat]
  have hlineNone : splitCRLF ((idS ++ 32 :: (lenS ++ 32 :: (ckS ++ [32]))) ++ body) = none := by
    rw [splitCRLF_append _ body hpreNone (Or.inl (by rw [hpreLast]; simp)), hbody]
    rfl
  have hassoc : mkStream idS lenS ckS body rest
      = ((idS ++ 32 :: (lenS ++ 32 :: (ckS ++ [32]))) ++ body) ++ 13 :: 10 :: rest := by
    simp [mkStream]
  rw [hassoc, splitCRLF_append _ _ hlineNone (Or.inr (by simp))]
  simp [splitCRLF]

/-- Value of ReadMessage on a well-formed wire line whose body holds no
CRLF: everything reduces to the declared-length and CRC checks. -/
theorem readMessage_mkStream (idS lenS ckS body rest : List Nat) (id ck : Nat) (blen : Int)
    (hid : parseUint 64 idS = some id)
    (hlen : parseInt64 lenS = some blen)
    (hlenD : ∀ c ∈ lenS, 48 ≤ c ∧ c ≤ 57)
    (hck : parseUint 32 ckS = some ck)
    (hbody : splitCRLF body = none) :
    ReadMessage (mkStream idS lenS ckS body rest) =
      (if blen = (body.length : Int) then
        (if crc32 body = ck then
          Except.ok ((idS ++ 32 :: (lenS ++ 32 :: (ckS ++ 32 :: body))).length + 2,
            ⟨id, trimRightCRLF body⟩)
         else Except.error ScanErr.crcMismatch)
       else Except.error ScanErr.invalidBodyLength) := by
  obtain ⟨hidNE, hidD⟩ := parseUint_digits 64 idS id hid
  obtain ⟨hckNE, hckD⟩ := parseUint_digits 32 ckS ck hck
  have hline := splitCRLF_mkStream idS lenS ckS body rest hidD hlenD hckD hbody
  have hEOF : ¬(idS ++ 32 :: (lenS ++ 32 :: (ckS ++ 32 :: body)) = [43, 69, 79, 70]) := by
    cases idS with
    | nil => exact absurd rfl hidNE
    | cons c0 idt =>
      have hc0 := hidD c0 (by simp)
      intro heq
      have hh : c0 = 43 := by
        have := congrArg List.head? heq
        simpa using this
      omega
  have hparts : splitN4 32 (idS ++ 32 :: (lenS ++ 32 :: (ckS ++ 32 :: body)))
      = [idS, lenS, ckS, body] :=
    splitN4_fields idS lenS ckS body (fun x hx => by have := hidD x hx; omega)
      (fun x hx => by have := hlenD x hx; omega)
      (fun x hx => by have := hckD x hx; omega)
  simp only [ReadMessage, hline, hEOF, hparts, hid, hlen, hck, if_false, ite_false]
  by_cases hb : blen = (body.length : Int)
  · rw [if_neg (fun hh => hh hb), if_pos hb]
    by_cases hcrc : crc32 body = ck
    · rw [if_neg (fun hh => hh hcrc), if_pos hcrc]
    · rw [if_pos hcrc, if_neg hcrc]
  · rw [if_pos hb, if_neg hb]

/-- Value of ReadMessage on a wire line whose body field contains a CRLF:
the line ends early, the body field is truncated, and the declared length
no longer matches. -/
theorem readMessage_mkStream_cut (idS lenS ckS body rest p q : List Nat)
    (id ck : Nat) (blen : Int)
    (hid : parseUint 64 idS = some id)
    (hlen : parseInt64 lenS = some blen)
    (hlenD : ∀ c ∈ lenS, 48 ≤ c ∧ c ≤ 57)
    (hck : parseUint 32 ckS = some ck)
    (hcut : splitCRLF body = some (p, q))
    (hblen : blen ≠ (p.length : Int)) :
    ReadMessage (mkStream idS lenS ckS body rest) =
      Except.error ScanErr.invalidBodyLength := by
  obtain ⟨hidNE, hidD⟩ := parseUint_digits 64 idS id hid
  obtain ⟨hckNE, hckD⟩ := parseUint_digits 32 ckS ck hck
  have hpre13 := no13_fields idS lenS ckS hidD hlenD hckD
  have hpreNone := splitCRLF_none_of_no13 _ hpre13
  have hpreLast : (idS ++ 32 :: (lenS ++ 32 :: (ckS ++ [32]))).getLast? = some 32 := by
    have hrw : idS ++ 32 :: (lenS ++ 32 :: (ckS ++ [32]))
        = (idS ++ 32 :: (lenS ++ 32 :: ckS)) ++ [32] := by
      simp
    rw [hrw, List.getLast?_concat]
  have hbt : splitCRLF (body ++ 13 :: 10 :: rest) = some (p, q ++ 13 :: 10 :: rest) :=
    splitCRLF_append_left body _ p q hcut
  have hassoc : mkStream idS lenS ckS body rest
      = (idS ++ 32 :: (lenS ++ 32 :: (ckS ++ [32]))) ++ (body ++ 13 :: 10 :: rest) := by
    simp [mkStream]
  have hline : splitCRLF (mkStream idS lenS ckS body rest)
      = some (idS ++ 32 :: (lenS ++ 32 :: (ckS ++ 32 :: p)), q ++ 13 :: 10 :: rest) := by
    rw [hassoc, splitCRLF_append _ _ hpreNone (Or.inl (by rw [hpreLast]; simp)), hbt]
    simp
  have hEOF : ¬(idS ++ 32 :: (lenS ++ 32 :: (ckS ++ 32 :: p)) = [43, 69, 79, 70]) := by
    cases idS with
    | nil => exact absurd rfl hidNE
    | cons c0 idt =>
      have hc0 := hidD c0 (by simp)
      intro heq
      have hh : c0 = 43 := by
        have := congrArg List.head? heq
        simpa using this
      omega
  have hparts : splitN4 32 (idS ++ 32 :: (lenS ++ 32 :: (ckS ++ 32 :: p)))
      = [idS, lenS, ckS, p] :=
    splitN4_fields idS lenS ckS p (fun x hx => by have := hidD x hx; omega)
      (fun x hx => by have := hlenD x hx; omega)
      (fun x hx => by have := hckD x hx; omega)
  simp only [ReadMessage, hline, hEOF, hparts, hid, hlen, hck, if_false, ite_false]
  rw [if_pos hblen]

/- ===== C6: bit flips in the message body ===== -/

/-- C6 counterexample: the body bytes 0x0c 0x0a parse fine, but flipping
the lowest bit of the first byte turns the body into a CRLF pair, so the
line is truncated and the read fails with errInvalidBodyLength, not with
errCrcChecksumMismatch. -/
theorem c6_counterexample :
    flipAt [12, 10] 0 0 = [13, 10] ∧
    ReadMessage (mkStream [55] [50] (encDec (crc32 [12, 10])) [12, 10] []) =
      Except.ok ((mkStream [55] [50] (encDec (crc32 [12, 10])) [12, 10] []).length,
        ⟨7, [12]⟩) ∧
    ReadMessage (mkStream [55] [50] (encDec (crc32 [12, 10])) [13, 10] []) =
      Except.error ScanErr.invalidBodyLength ∧
    ScanErr.invalidBodyLength ≠ ScanErr.crcMismatch := by
  refine ⟨by decide, by decide, by decide, by decide⟩

/-- C6 (amended): on a message line that otherwise parses (digit fields
declaring the body's length and its IEEE CRC-32 as unsigned decimals, body
free of CRLF), flipping any single bit of the body while keeping the
declared checksum makes the scanner's read fail: with
errCrcChecksumMismatch whenever the flipped body still contains no CRLF
pair, and with errInvalidBodyLength when the flip introduces a CRLF that
truncates the line early. -/
theorem c6_amended_bit_flip_detected (idS lenS ckS body rest : List Nat)
    (id i k : Nat)
    (hid : parseUint 64 idS = some id)
    (hlen : parseInt64 lenS = some (body.length : Int))
    (hlenD : ∀ c ∈ lenS, 48 ≤ c ∧ c ≤ 57)
    (hck : parseUint 32 ckS = some (crc32 body))
    (hbody : hasCRLF body = false)
    (hbytes : ∀ b ∈ body, b < 256)
    (hi : i < body.length) (hk : k < 8) :
    ReadMessage (mkStream idS lenS ckS body rest) =
      Except.ok ((idS ++ 32 :: (lenS ++ 32 :: (ckS ++ 32 :: body))).length + 2,
        ⟨id, trimRightCRLF body⟩) ∧
    (hasCRLF (flipAt body i k) = false →
      ReadMessage (mkStream idS lenS ckS (flipAt body i k) rest) =
        Except.error ScanErr.crcMismatch) ∧
    (hasCRLF (flipAt body i k) = true →
      ReadMessage (mkStream idS lenS ckS (flipAt body i k) rest) =
        Except.error ScanErr.invalidBodyLength) := by
  have hbodyN : splitCRLF body = none := by
    cases h : splitCRLF body with
    | none => rfl
    | some pr =>
      unfold hasCRLF at hbody
      rw [h] at hbody
      simp at hbody
  refine ⟨?_, ?_, ?_⟩
  · rw [readMessage_mkStream idS lenS ckS body rest id (crc32 body) (body.length : Int)
      hid hlen hlenD hck hbodyN]
    rw [if_pos rfl, if_pos rfl]
  · intro hfl
    have hflN : splitCRLF (flipAt body i k) = none := by
      cases h : splitCRLF (flipAt body i k) with
      | none => rfl
      | some pr =>
        unfold hasCRLF at hfl
        rw [h] at hfl
        simp at hfl
    rw [readMessage_mkStream idS lenS ckS (flipAt body i k) rest id (crc32 body)
      (body.length : Int) hid hlen hlenD hck hflN]
    have hlenEq : (body.length : Int) = ((flipAt body i k).length : Int) := by
      simp [flipAt]
    rw [if_pos hlenEq, if_neg (crc32_flip_ne body i k hi hk hbytes)]
  · intro hfl
    obtain ⟨pr, hpr⟩ : ∃ pr, splitCRLF (flipAt body i k) = some pr := by
      cases h : splitCRLF (flipAt body i k) with
      | none =>
        unfold hasCRLF at hfl
        rw [h] at hfl
        simp at hfl
      | some pr => exact ⟨pr, rfl⟩
    have hdecomp := splitCRLF_eq_parts _ pr.1 pr.2 (by simpa using hpr)
    have hlen0 : body.length = pr.1.length + 2 + pr.2.length := by
      have hl := congrArg List.length hdecomp
      simp [flipAt] at hl
      omega
    refine readMessage_mkStream_cut idS lenS ckS (flipAt body i k) rest pr.1 pr.2 id
      (crc32 body) (body.length : Int) hid hlen hlenD hck (by simpa using hpr) ?_
    rw [hlen0]
    push_cast
    omega

/-- C6 witness: the amended statement applied to the line for body "ab"
with bit 0 of the first byte flipped (no CRLF introduced). -/
theorem c6_amended_witness :
    ReadMessage (mkStream [55] [50] (encDec (crc32 [97, 98])) (flipAt [97, 98] 0 0) []) =
      Except.error ScanErr.crcMismatch :=
  (c6_amended_bit_flip_detected [55] [50] (encDec (crc32 [97, 98])) [97, 98] [] 7 0 0
    (by decide) (by decide) (by decide) (by decide) (by decide) (by decide) (by decide)
    (by decide)).2.1 (by decide)
